import Mathlib

/-!
Verification development for the Blender space-scene repository
(`space_scene.py`, `grand_flyby.py`).

The development shallowly embeds the host-independent core of the two
scripts: the shader node-graph construction (`build_starfield_world`),
the compatibility-resolution layer (`safe_set`, `set_input`), the
procedural scatterer (`add_asteroid_field`), the orbit keyframe builder
(`add_moon`) and the interpolation negotiation (`apply_interp`).
Host values (socket default values, keyframe values) are modelled over `ℝ`;
collections of host objects are modelled as lists in creation order.
-/

namespace SpaceScene

/-- Scene frame range constant from space_scene.py (FRAME_START = 1). -/
def FRAME_START : Int := 1

/-- Scene frame range constant from space_scene.py (FRAME_END = 300). -/
def FRAME_END : Int := 300

/-- One keyframe point of an f-curve: coordinates and an interpolation
mode identifier, as on Blender's `Keyframe` RNA type. -/
structure KeyframePoint where
  co : Int × Real
  interpolation : String


/-- One f-curve of an action: an ordered list of keyframe points. -/
structure FCurve where
  keyframe_points : List KeyframePoint


/-- An action: an ordered list of f-curves. -/
structure BAction where
  fcurves : List FCurve


/-- The probe loop at the top of `apply_interp` (space_scene.py lines
586-594): it walks the action's f-curves and, at the first f-curve having
a nonempty `keyframe_points`, reads the set of interpolation enum
identifiers from the host RNA of its first keyframe and stops; if no
f-curve has a keyframe, `allowed` stays empty.  The host's enum item list
is the parameter `enumItems`. -/
def probe_allowed (enumItems : List String) (action : BAction) : List String :=
  match action.fcurves.find? (fun fcu => !fcu.keyframe_points.isEmpty) with
  | some _ => enumItems
  | none => []

/-- The negotiation expression of `apply_interp` (space_scene.py line 595):
`use = desired if desired in allowed else ('BEZIER' if 'BEZIER' in allowed
else 'LINEAR')`. -/
def negotiate_interpolation (desired : String) (allowed : List String) : String :=
  if desired ∈ allowed then desired
  else if "BEZIER" ∈ allowed then "BEZIER"
  else "LINEAR"

/-- Embeds `apply_interp(action, desired)` (space_scene.py lines 584-598):
probe the allowed interpolation enum identifiers, negotiate the mode to
use, then set it on every keyframe point of every f-curve of the action. -/
def apply_interp (enumItems : List String) (action : BAction) (desired : String) : BAction :=
  let allowed := probe_allowed enumItems action
  let use := negotiate_interpolation desired allowed
  { fcurves := action.fcurves.map fun fcu =>
      { keyframe_points := fcu.keyframe_points.map fun kp =>
          { kp with interpolation := use } } }

/-- A node input socket as seen by `set_input`: its name, its
`default_value` (scalars and colors are both modelled as a list of reals),
and `settable`, which models whether the host accepts an assignment to
`default_value` (a wrong type or a read-only socket raises). -/
structure NSocket where
  sname : String
  default_value : List Real
  settable : Bool

/-- A shader node as seen by `set_input`: its ordered input socket
collection. -/
structure NodeObj where
  inputs : List NSocket

/-- Embeds `node.inputs.get(name)`: the first input socket with the given
name, or none. -/
def inputs_get (node : NodeObj) (name : String) : Option NSocket :=
  node.inputs.find? (fun s => s.sname == name)

/-- The host assignment `sock.default_value = value`; it raises (models as
`.error`) when the socket rejects assignment. -/
def socket_assign (s : NSocket) (v : List Real) : Except String NSocket :=
  if s.settable then Except.ok { s with default_value := v }
  else Except.error "assignment rejected"

/-- Replaces the first socket named `name` in the list by `repl`. -/
def updateFirst : List NSocket → String → NSocket → List NSocket
  | [], _, _ => []
  | s :: rest, name, repl =>
    if s.sname == name then repl :: rest else s :: updateFirst rest name repl

/-- Embeds `set_input(node, names, value)` (space_scene.py lines 63-72):
walk the candidate names; at the first name whose socket exists, try the
assignment, swallow any failure (`except Exception: pass`), and return.
`Except` models Python exception propagation to the caller; the source's
`try`/`except` is why no branch produces `.error`. -/
def set_input (node : NodeObj) (names : List String) (v : List Real) :
    Except String NodeObj :=
  match names with
  | [] => Except.ok node
  | name :: rest =>
    match inputs_get node name with
    | some sock =>
      match socket_assign sock v with
      | Except.ok s' => Except.ok { inputs := updateFirst node.inputs name s' }
      | Except.error _ => Except.ok node
    | none => set_input node rest v

/-- Available input-socket names of a node, in order. -/
def caps (node : NodeObj) : List String :=
  node.inputs.map (fun s => s.sname)

/-- The CompatibilityAlias resolution performed by the candidate loops of
`set_input` (space_scene.py lines 65-67) and `safe_set` (line 57): the
first candidate name present in the target's available name set, or none
when no candidate is present. -/
def resolve (capabilities : List String) (candidates : List String) : Option String :=
  candidates.find? (fun c => decide (c ∈ capabilities))

/-- A generic host object as seen by `safe_set`: named attributes with
real-valued contents, plus the set of attribute names whose `setattr`
raises on the host (wrong type, read-only). -/
structure PyObj where
  attrs : List (String × List Real)
  failing : List String

/-- Embeds Python `hasattr(obj, prop)` over the modelled attribute set. -/
def hasattr (o : PyObj) (p : String) : Bool :=
  (o.attrs.find? (fun a => a.1 == p)).isSome

/-- Embeds Python `setattr(obj, prop, value)`: raises for a failing
attribute, otherwise updates the attribute in place. -/
def setattrE (o : PyObj) (p : String) (v : List Real) : Except String PyObj :=
  if p ∈ o.failing then Except.error "setattr rejected"
  else Except.ok { o with attrs := o.attrs.map (fun a => if a.1 == p then (a.1, v) else a) }

/-- Embeds `safe_set(obj, prop, value)` (space_scene.py lines 55-61;
grand_flyby.py lines 39-44 are identical): set an attribute only if it
exists, swallowing any failure of the assignment itself. -/
def safe_set (o : PyObj) (p : String) (v : List Real) : Except String PyObj :=
  if hasattr o p then
    match setattrE o p v with
    | Except.ok o2 => Except.ok o2
    | Except.error _ => Except.ok o
  else Except.ok o

/-- The rotation triple `rotation_euler` of an object. -/
structure Euler3 where
  x : Real
  y : Real
  z : Real

/-- One inserted keyframe: frame number and the keyframed rotation value. -/
structure OrbitKey where
  frame : Int
  value : Euler3

/-- Embeds Python `math.radians(deg)`. -/
noncomputable def radians (deg : Real) : Real := deg * (Real.pi / 180)

/-- Embeds the orbit-animation tail of `add_moon` (space_scene.py lines
366-369): the pivot's `rotation_euler` is zeroed and keyframed at
FRAME_START, then its z component is set to `math.radians(360)` and the
rotation is keyframed again at FRAME_END (the scene's frame range, set at
lines 91-92). -/
noncomputable def add_moon_orbit_keys : List OrbitKey :=
  let rot0 : Euler3 := ⟨0, 0, 0⟩
  let keys1 : List OrbitKey := [⟨FRAME_START, rot0⟩]
  let rot1 : Euler3 := ⟨rot0.x, rot0.y, radians 360⟩
  keys1 ++ [⟨FRAME_END, rot1⟩]

end SpaceScene

/-- A node of a constructed shader graph: creation index, host node type
identifier, numeric parameter assignments (a color is a list of four
reals) and enum-valued attribute assignments. -/
structure SNode where
  nid : Nat
  ntype : String
  fparams : List (String × List Real)
  eparams : List (String × String)

/-- A link of a constructed shader graph: source node and output socket,
destination node and input socket, as produced by one `links.new` call. -/
structure SLink where
  srcNode : Nat
  srcSocket : String
  dstNode : Nat
  dstSocket : String
deriving DecidableEq

/-- A constructed shader graph: nodes and links in creation order plus
the designated terminal (output) node. -/
structure SGraph where
  nodes : List SNode
  links : List SLink
  terminal : Nat

/-- Number of links of `g` entering node `n` (on any input socket). -/
def inLinks (g : SGraph) (n : Nat) : Nat :=
  g.links.countP (fun l => l.dstNode == n)

/-- Holds when no two links of the list target the same input socket
(same destination node and same destination socket name). -/
def distinctInputs : List SLink → Bool
  | [] => true
  | l :: ls =>
    (ls.all fun m => !(m.dstNode == l.dstNode && m.dstSocket == l.dstSocket)) &&
      distinctInputs ls

namespace GrandFlyby

/-- Embeds `build_starfield_world(world, star_scale, star_spread)`
(grand_flyby.py lines 59-95).  Nodes carry their parameter assignments in
creation order; the link list mirrors the seven `links.new` calls in
source order; index sockets such as `mix.inputs[1]` are named by their
index; the terminal is the `ShaderNodeOutputWorld` node (id 0). -/
def build_starfield_world (star_scale star_spread : Real) : SGraph :=
  { nodes :=
      [ ⟨0, "ShaderNodeOutputWorld", [], []⟩,
        ⟨1, "ShaderNodeBackground",
          [("Color", [0, 0, 0, 1]), ("Strength", [1.0])], []⟩,
        ⟨2, "ShaderNodeMixShader", [], []⟩,
        ⟨3, "ShaderNodeEmission",
          [("Color", [1, 1, 1, 1]), ("Strength", [4.0])], []⟩,
        ⟨4, "ShaderNodeTexVoronoi", [("Scale", [star_scale])],
          [("feature", "F1"), ("distance", "EUCLIDEAN")]⟩,
        ⟨5, "ShaderNodeValToRGB",
          [("elements[0].position", [star_spread]),
           ("elements[0].color", [0, 0, 0, 1]),
           ("elements[1].position", [star_spread + 0.015]),
           ("elements[1].color", [1, 1, 1, 1])], []⟩,
        ⟨6, "ShaderNodeTexCoord", [], []⟩,
        ⟨7, "ShaderNodeMath", [("inputs[1]", [6.5])],
          [("operation", "POWER")]⟩ ],
    links :=
      [ ⟨6, "Generated", 4, "Vector"⟩,
        ⟨4, "Distance", 5, "Fac"⟩,
        ⟨5, "Color", 7, "inputs[0]"⟩,
        ⟨7, "Value", 2, "Fac"⟩,
        ⟨1, "Background", 2, "inputs[1]"⟩,
        ⟨3, "Emission", 2, "inputs[2]"⟩,
        ⟨2, "Shader", 0, "Surface"⟩ ],
    terminal := 0 }

/-- One placement produced by the asteroid scatterer: the position of the
instanced ico-sphere and its radius (`size`). -/
structure PlacementRecord where
  pos : Real × Real × Real
  size : Real

/-- Embeds Python `random.uniform(a, b)`, which returns `a + (b-a) * t`
for a unit draw `t` of the underlying generator. -/
def uniform (a b t : Real) : Real := a + (b - a) * t

/-- Embeds the placement computation of `add_asteroid_field(count, inner,
outer)` (grand_flyby.py lines 234-245).  The host RNG is modelled by the
unit-draw stream `t`: iteration `i` consumes draws `t (4*i)` through
`t (4*i+3)` as its four successive `random.uniform` calls — radius in
[inner, outer], angle in [0, 2π), height in [-5, 5], size in [0.2, 0.8] —
in source order; the angle/radius pair is converted to Cartesian; one
record is produced per iteration, with no rejection and no separation
filtering. -/
noncomputable def add_asteroid_field (count : Nat) (inner outer : Real)
    (t : Nat → Real) : List PlacementRecord :=
  (List.range count).map fun i =>
    let r := uniform inner outer (t (4 * i))
    let ang := uniform 0 (2 * Real.pi) (t (4 * i + 1))
    let z := uniform (-5) 5 (t (4 * i + 2))
    let size := uniform 0.2 0.8 (t (4 * i + 3))
    { pos := (r * Real.cos ang, r * Real.sin ang, z), size := size }

/-- Planar radius of a position: its distance from the belt's axis (the
z axis) in the xy-plane. -/
noncomputable def planar_radius (p : Real × Real × Real) : Real :=
  Real.sqrt (p.1 ^ 2 + p.2.1 ^ 2)

end GrandFlyby

namespace NodeGraphBuilder

/-- Modelled from the spec: the semantic socket types of the
NodeGraphBuilder data model (spec §3), absent from the source scripts,
which delegate typing to the host. -/
inductive SemType where
  | scalar
  | color
  | vector
  | shader
  | volume
deriving DecidableEq

/-- Modelled from the spec: a builder node with its identity and its
typed input and output socket declarations (spec §3). -/
structure BNode where
  nid : Nat
  inSockets : List (String × SemType)
  outSockets : List (String × SemType)
deriving DecidableEq

/-- Modelled from the spec: a graph under construction — nodes plus the
links inserted so far. -/
structure BGraph where
  nodes : List BNode
  links : List SLink
deriving DecidableEq

/-- Modelled from the spec: the `connect` failure taxonomy (spec §4.2,
§7). -/
inductive ConnectError where
  | IncompatibleSocketError
  | SocketOccupiedError
  | CycleError
deriving DecidableEq

/-- Semantic type of a named output socket of a node, when declared. -/
def outType (n : BNode) (s : String) : Option SemType :=
  (n.outSockets.find? fun q => q.1 == s).map fun q => q.2

/-- Semantic type of a named input socket of a node, when declared. -/
def inType (n : BNode) (s : String) : Option SemType :=
  (n.inSockets.find? fun q => q.1 == s).map fun q => q.2

/-- Node lookup by identity. -/
def getNode (g : BGraph) (i : Nat) : Option BNode :=
  g.nodes.find? fun n => n.nid == i

/-- Holds when the destination input socket already has a link. -/
def occupied (g : BGraph) (dst : Nat) (ds : String) : Bool :=
  g.links.any fun l => l.dstNode == dst && l.dstSocket == ds

/-- One frontier expansion step of the reachability search: all direct
successors of the frontier along the links. -/
def successors (links : List SLink) (frontier : List Nat) : List Nat :=
  links.filterMap fun l =>
    if frontier.contains l.srcNode then some l.dstNode else none

/-- Fuel-bounded breadth-first reachability over the links. -/
def reachableIn : Nat → List SLink → List Nat → Nat → Bool
  | 0, _, frontier, target => frontier.contains target
  | fuel + 1, links, frontier, target =>
    frontier.contains target ||
      reachableIn fuel links (frontier ++ successors links frontier) target

/-- Modelled from the spec: `connect(src, src_socket, dst, dst_socket)`
of the NodeGraphBuilder (spec §4.2), absent from the source scripts
(their `links.new` host calls do not validate).  It fails with
`SocketOccupiedError` when the destination input already has a link, with
`IncompatibleSocketError` when a socket is undeclared or the semantic
types differ, and with `CycleError` when the destination already reaches
the source; otherwise it inserts the link. -/
def connect (g : BGraph) (src : Nat) (ss : String) (dst : Nat) (ds : String) :
    Except ConnectError BGraph :=
  if occupied g dst ds then Except.error ConnectError.SocketOccupiedError
  else
    match (getNode g src).bind (fun n => outType n ss),
          (getNode g dst).bind (fun n => inType n ds) with
    | some t1, some t2 =>
      if t1 = t2 then
        if reachableIn (g.nodes.length + g.links.length) g.links [dst] src then
          Except.error ConnectError.CycleError
        else Except.ok { g with links := ⟨src, ss, dst, ds⟩ :: g.links }
      else Except.error ConnectError.IncompatibleSocketError
    | _, _ => Except.error ConnectError.IncompatibleSocketError

end NodeGraphBuilder

/-- C3: interpolation negotiation follows the fixed fallback chain
desired → BEZIER → LINEAR and never fails: it returns the desired mode
when it is in the supported set, otherwise BEZIER when BEZIER is
supported, otherwise LINEAR; in particular negotiating LINEAR against
{LINEAR, BEZIER} gives LINEAR and negotiating LINEAR against {BEZIER}
gives BEZIER. -/
theorem negotiate_interpolation_fallback_chain_c3 :
    (∀ desired allowed, SpaceScene.negotiate_interpolation desired allowed =
      if desired ∈ allowed then desired
      else if "BEZIER" ∈ allowed then "BEZIER"
      else "LINEAR") ∧
    SpaceScene.negotiate_interpolation "LINEAR" ["LINEAR", "BEZIER"] = "LINEAR" ∧
    SpaceScene.negotiate_interpolation "LINEAR" ["BEZIER"] = "BEZIER" := by
  refine ⟨fun desired allowed => rfl, by decide, by decide⟩

/-- C4 counterexample: with an empty supported set the negotiation does
not return every desired mode unmodified: desiring SINE yields LINEAR. -/
theorem negotiate_empty_support_counterexample_c4 :
    SpaceScene.negotiate_interpolation "SINE" [] ≠ "SINE" := by
  decide

/-- C4 amended: when the supported set cannot be determined (is empty),
negotiation returns the literal fallback "LINEAR" for every desired mode;
the desired mode is returned unmodified exactly when it is "LINEAR". -/
theorem negotiate_empty_support_amended_c4 :
    ∀ desired, SpaceScene.negotiate_interpolation desired [] = "LINEAR" := by
  intro desired
  simp [SpaceScene.negotiate_interpolation]

/-- C10: after `apply_interp`, every keyframe point of every f-curve of
the action carries one and the same interpolation mode, namely the
negotiated one — the assignment is uniform, never mixed. -/
theorem apply_interp_uniform_c10 :
    ∀ enumItems action desired,
      ((SpaceScene.apply_interp enumItems action desired).fcurves.all fun fcu =>
        fcu.keyframe_points.all fun kp =>
          kp.interpolation ==
            SpaceScene.negotiate_interpolation desired
              (SpaceScene.probe_allowed enumItems action)) = true := by
  intro enumItems action desired
  simp [SpaceScene.apply_interp, List.all_eq_true]

/-- Characterization of `List.find?`: it returns `some a` exactly when the
list splits as a prefix of non-matching elements followed by `a`. -/
theorem find?_eq_some_first {α : Type} (p : α → Bool) (l : List α) (a : α) :
    l.find? p = some a ↔
      p a = true ∧ ∃ l1 l2, l = l1 ++ a :: l2 ∧ ∀ x ∈ l1, p x = false := by
  induction l with
  | nil => simp
  | cons b t ih =>
    by_cases hb : p b = true
    · rw [List.find?_cons_of_pos _ hb]
      constructor
      · intro h
        injection h with h
        subst h
        exact ⟨hb, [], t, rfl, by simp⟩
      · rintro ⟨hpa, l1, l2, hdecomp, hall⟩
        cases l1 with
        | nil =>
          simp only [List.nil_append, List.cons.injEq] at hdecomp
          rw [hdecomp.1]
        | cons c l1t =>
          simp only [List.cons_append, List.cons.injEq] at hdecomp
          have hc : p c = false := hall c (by simp)
          rw [← hdecomp.1] at hc
          rw [hc] at hb
          cases hb
    · rw [List.find?_cons_of_neg _ hb]
      rw [ih]
      constructor
      · rintro ⟨hpa, l1, l2, hdecomp, hall⟩
        refine ⟨hpa, b :: l1, l2, by simp [hdecomp], ?_⟩
        intro x hx
        rcases List.mem_cons.mp hx with hx | hx
        · rw [hx]
          exact Bool.eq_false_iff.mpr hb
        · exact hall x hx
      · rintro ⟨hpa, l1, l2, hdecomp, hall⟩
        cases l1 with
        | nil =>
          simp only [List.nil_append, List.cons.injEq] at hdecomp
          rw [← hdecomp.1] at hpa
          exact absurd hpa hb
        | cons c l1t =>
          simp only [List.cons_append, List.cons.injEq] at hdecomp
          exact ⟨hpa, l1t, l2, hdecomp.2,
            fun x hx => hall x (List.mem_cons_of_mem c hx)⟩

/-- Looking up a socket by name succeeds exactly when the name is among
the node's available socket names. -/
theorem inputs_get_eq_none_iff (node : SpaceScene.NodeObj) (name : String) :
    SpaceScene.inputs_get node name = none ↔ name ∉ SpaceScene.caps node := by
  rw [SpaceScene.inputs_get, List.find?_eq_none, SpaceScene.caps]
  simp

/-- Replacing the first socket of a given name preserves the list length. -/
theorem length_updateFirst (l : List SpaceScene.NSocket) (name : String)
    (repl : SpaceScene.NSocket) :
    (SpaceScene.updateFirst l name repl).length = l.length := by
  induction l with
  | nil => rfl
  | cons s rest ih =>
    rw [SpaceScene.updateFirst]
    by_cases h : s.sname == name
    · simp [h]
    · simp [h, ih]

/-- Replacing the first socket of a given name leaves every position whose
socket carries a different name untouched. -/
theorem updateFirst_get?_ne (l : List SpaceScene.NSocket) (name : String)
    (repl : SpaceScene.NSocket) (i : Nat)
    (hne : ∀ s, l.get? i = some s → s.sname ≠ name) :
    (SpaceScene.updateFirst l name repl).get? i = l.get? i := by
  induction l generalizing i with
  | nil => rfl
  | cons s rest ih =>
    rw [SpaceScene.updateFirst]
    by_cases h : s.sname == name
    · cases i with
      | zero =>
        exact absurd (beq_iff_eq.mp h) (hne s rfl)
      | succ j =>
        rw [if_pos h]
        rfl
    · cases i with
      | zero =>
        rw [if_neg h]
        rfl
      | succ j =>
        rw [if_neg h]
        exact ih j hne

/-- C5: the compatibility setters never propagate a failure: `set_input`
and `safe_set` always complete without raising, whatever the target, the
candidate list and the value; and resolving ["Specular", "Specular IOR
Level"] against a target exposing only "Roughness" yields none-found. -/
theorem compat_setter_never_raises_c5 :
    (∀ node names v, ∃ n', SpaceScene.set_input node names v = Except.ok n') ∧
    (∀ o p v, ∃ o', SpaceScene.safe_set o p v = Except.ok o') ∧
    SpaceScene.resolve ["Roughness"] ["Specular", "Specular IOR Level"] = none := by
  refine ⟨?_, ?_, by decide⟩
  · intro node names v
    induction names with
    | nil => exact ⟨node, rfl⟩
    | cons name rest ih =>
      cases h : SpaceScene.inputs_get node name with
      | some sock =>
        cases hs : SpaceScene.socket_assign sock v with
        | ok s' =>
          refine ⟨{ inputs := SpaceScene.updateFirst node.inputs name s' }, ?_⟩
          simp only [SpaceScene.set_input, h, hs]
        | error e =>
          refine ⟨node, ?_⟩
          simp only [SpaceScene.set_input, h, hs]
      | none =>
        obtain ⟨n', hn⟩ := ih
        refine ⟨n', ?_⟩
        simp only [SpaceScene.set_input, h]
        exact hn
  · intro o p v
    rw [SpaceScene.safe_set]
    by_cases h : SpaceScene.hasattr o p
    · simp only [h, if_true]
      cases hs : SpaceScene.setattrE o p v with
      | ok o2 => exact ⟨o2, rfl⟩
      | error e => exact ⟨o, rfl⟩
    · simp only [h, if_false]
      exact ⟨o, rfl⟩

/-- C6: alias resolution returns the first candidate name, in list order,
that is present in the target's available name set, and none when no
candidate is present. -/
theorem resolve_first_present_c6 :
    ∀ capabilities cands,
      (SpaceScene.resolve capabilities cands = none ↔
        ∀ c ∈ cands, c ∉ capabilities) ∧
      (∀ n, SpaceScene.resolve capabilities cands = some n ↔
        n ∈ capabilities ∧
          ∃ l1 l2, cands = l1 ++ n :: l2 ∧ ∀ c ∈ l1, c ∉ capabilities) := by
  intro capabilities cands
  constructor
  · rw [SpaceScene.resolve, List.find?_eq_none]
    simp
  · intro n
    rw [SpaceScene.resolve, find?_eq_some_first]
    simp

/-- C9: the compatibility setters modify nothing they did not resolve:
when no candidate name is present the target is returned entirely
unmodified; when a candidate resolves, every socket position carrying a
different name is unchanged (and the length of the socket collection is
preserved); `safe_set` likewise returns a missing-attribute target
unmodified and preserves every attribute other than the one it sets. -/
theorem compat_setter_frame_effect_c9 :
    ∀ node names v,
      (SpaceScene.resolve (SpaceScene.caps node) names = none →
        SpaceScene.set_input node names v = Except.ok node) ∧
      (∀ r n', SpaceScene.resolve (SpaceScene.caps node) names = some r →
        SpaceScene.set_input node names v = Except.ok n' →
        n'.inputs.length = node.inputs.length ∧
        ∀ i s, node.inputs.get? i = some s → s.sname ≠ r →
          n'.inputs.get? i = node.inputs.get? i) ∧
      (∀ o p w, SpaceScene.hasattr o p = false →
        SpaceScene.safe_set o p w = Except.ok o) ∧
      (∀ o p w o', SpaceScene.safe_set o p w = Except.ok o' →
        ∀ a ∈ o.attrs, a.1 ≠ p → a ∈ o'.attrs) := by
  intro node names v
  refine ⟨?_, ?_, ?_, ?_⟩
  · induction names with
    | nil => intro _; rfl
    | cons name rest ih =>
      intro hres
      rw [SpaceScene.resolve] at hres
      have hall := List.find?_eq_none.mp hres
      have hname : name ∉ SpaceScene.caps node := by
        have := hall name (by simp)
        simpa using this
      have hrest : SpaceScene.resolve (SpaceScene.caps node) rest = none := by
        rw [SpaceScene.resolve]
        exact List.find?_eq_none.mpr fun x hx => hall x (List.mem_cons_of_mem _ hx)
      have hget : SpaceScene.inputs_get node name = none :=
        (inputs_get_eq_none_iff node name).mpr hname
      simp only [SpaceScene.set_input, hget]
      exact ih hrest
  · induction names with
    | nil =>
      intro r n' hres
      rw [SpaceScene.resolve] at hres
      cases hres
    | cons name rest ih =>
      intro r n' hres hset
      by_cases hname : name ∈ SpaceScene.caps node
      · have hr : r = name := by
          rw [SpaceScene.resolve,
            List.find?_cons_of_pos _ (by simpa using hname)] at hres
          injection hres with hres
          exact hres.symm
        subst hr
        have hsome : ∃ sock, SpaceScene.inputs_get node r = some sock := by
          cases hg : SpaceScene.inputs_get node r with
          | some sock => exact ⟨sock, rfl⟩
          | none => exact absurd hname ((inputs_get_eq_none_iff node r).mp hg)
        obtain ⟨sock, hg⟩ := hsome
        cases hs : SpaceScene.socket_assign sock v with
        | ok s' =>
          have heq : SpaceScene.set_input node (r :: rest) v =
              Except.ok ⟨SpaceScene.updateFirst node.inputs r s'⟩ := by
            simp only [SpaceScene.set_input, hg, hs]
          rw [heq] at hset
          injection hset with hset
          subst hset
          refine ⟨length_updateFirst _ _ _, ?_⟩
          intro i s hgi hne
          refine updateFirst_get?_ne _ _ _ i ?_
          intro s2 h2
          rw [hgi] at h2
          injection h2 with h2
          rw [← h2]
          exact hne
        | error e =>
          have heq : SpaceScene.set_input node (r :: rest) v = Except.ok node := by
            simp only [SpaceScene.set_input, hg, hs]
          rw [heq] at hset
          injection hset with hset
          subst hset
          exact ⟨rfl, fun i s _ _ => rfl⟩
      · have hg : SpaceScene.inputs_get node name = none :=
          (inputs_get_eq_none_iff node name).mpr hname
        have hres' : SpaceScene.resolve (SpaceScene.caps node) rest = some r := by
          rw [SpaceScene.resolve] at hres ⊢
          rwa [List.find?_cons_of_neg _ (by simpa using hname)] at hres
        have hset' : SpaceScene.set_input node rest v = Except.ok n' := by
          simp only [SpaceScene.set_input, hg] at hset
          exact hset
        exact ih r n' hres' hset'
  · intro o p w h
    simp [SpaceScene.safe_set, h]
  · intro o p w o' hset a ha hne
    by_cases hh : SpaceScene.hasattr o p
    · by_cases hf : p ∈ o.failing
      · simp only [SpaceScene.safe_set, hh, if_true, SpaceScene.setattrE, hf] at hset
        injection hset with hset
        subst hset
        exact ha
      · simp only [SpaceScene.safe_set, hh, if_true, SpaceScene.setattrE, hf,
          if_false] at hset
        injection hset with hset
        subst hset
        refine List.mem_map.mpr ⟨a, ha, ?_⟩
        rw [if_neg (by simpa using hne)]
    · simp only [SpaceScene.safe_set, hh, if_false] at hset
      injection hset with hset
      subst hset
      exact ha

/-- Witness for C9 at concrete inputs: a node exposing only "Roughness"
is returned unmodified by a ["Specular", "Specular IOR Level"] set; a
node exposing "Specular" keeps its length and its unrelated "Roughness"
socket after a set; a `safe_set` on a missing attribute returns the target
unchanged; an unrelated attribute survives a successful `safe_set`. -/
theorem compat_setter_frame_effect_c9_witness :
    SpaceScene.set_input ⟨[⟨"Roughness", [0.6], true⟩]⟩
        ["Specular", "Specular IOR Level"] [1] =
      Except.ok ⟨[⟨"Roughness", [0.6], true⟩]⟩ ∧
    (SpaceScene.NodeObj.mk
        [⟨"Specular", [9], true⟩, ⟨"Roughness", [2], true⟩]).inputs.length =
      (SpaceScene.NodeObj.mk
        [⟨"Specular", [0], true⟩, ⟨"Roughness", [2], true⟩]).inputs.length ∧
    (SpaceScene.NodeObj.mk
        [⟨"Specular", [9], true⟩, ⟨"Roughness", [2], true⟩]).inputs.get? 1 =
      (SpaceScene.NodeObj.mk
        [⟨"Specular", [0], true⟩, ⟨"Roughness", [2], true⟩]).inputs.get? 1 ∧
    SpaceScene.safe_set ⟨[("energy", [0])], []⟩ "bloom_intensity" [3] =
      Except.ok ⟨[("energy", [0])], []⟩ ∧
    (("color", [1]) :
        String × List Real) ∈ (SpaceScene.PyObj.mk
          [("energy", [7]), ("color", [1])] []).attrs :=
  ⟨(compat_setter_frame_effect_c9 ⟨[⟨"Roughness", [0.6], true⟩]⟩
      ["Specular", "Specular IOR Level"] [1]).1 (by decide),
   ((compat_setter_frame_effect_c9
      ⟨[⟨"Specular", [0], true⟩, ⟨"Roughness", [2], true⟩]⟩
      ["Specular"] [9]).2.1 "Specular" _ (by decide) rfl).1,
   ((compat_setter_frame_effect_c9
      ⟨[⟨"Specular", [0], true⟩, ⟨"Roughness", [2], true⟩]⟩
      ["Specular"] [9]).2.1 "Specular" _ (by decide) rfl).2 1
      ⟨"Roughness", [2], true⟩ rfl (by decide),
   (compat_setter_frame_effect_c9 ⟨[]⟩ [] []).2.2.1
      ⟨[("energy", [0])], []⟩ "bloom_intensity" [3] (by decide),
   (compat_setter_frame_effect_c9 ⟨[]⟩ [] []).2.2.2
      ⟨[("energy", [0]), ("color", [1])], []⟩ "energy" [7]
      ⟨[("energy", [7]), ("color", [1])], []⟩ rfl ("color", [1])
      (by simp) (by decide)⟩

/-- C1 counterexample: the starfield world graph built with scale=600 and
spread=0.003 does not have the claimed 7-node topology — the recipe
creates 8 nodes (output, background, mix, emission, voronoi, color ramp,
texture coordinate, power math node), so the claimed conjunction fails. -/
theorem starfield_topology_counterexample_c1 :
    ¬ (inLinks (GrandFlyby.build_starfield_world 600 0.003)
        (GrandFlyby.build_starfield_world 600 0.003).terminal = 1 ∧
      (GrandFlyby.build_starfield_world 600 0.003).nodes.length = 7 ∧
      (GrandFlyby.build_starfield_world 600 0.003).links.length = 7) := by
  intro h
  have h8 : (GrandFlyby.build_starfield_world 600 0.003).nodes.length = 8 := by
    decide
  rw [h.2.1] at h8
  cases h8

/-- C1 amended: building the starfield world graph with scale=600 and
spread=0.003 yields a graph whose terminal (world-output) node has exactly
one incoming link, and whose topology is exactly 8 nodes and 7 links. -/
theorem starfield_topology_amended_c1 :
    inLinks (GrandFlyby.build_starfield_world 600 0.003)
      (GrandFlyby.build_starfield_world 600 0.003).terminal = 1 ∧
    (GrandFlyby.build_starfield_world 600 0.003).nodes.length = 8 ∧
    (GrandFlyby.build_starfield_world 600 0.003).links.length = 7 := by
  refine ⟨by decide, by decide, by decide⟩

/-- Bounds of a `random.uniform(a, b)` draw: with a unit draw in [0, 1]
the result lies in [a, b]. -/
theorem uniform_mem (a b t : Real) (hab : a ≤ b) (h0 : 0 ≤ t) (h1 : t ≤ 1) :
    a ≤ GrandFlyby.uniform a b t ∧ GrandFlyby.uniform a b t ≤ b := by
  rw [GrandFlyby.uniform]
  constructor <;> nlinarith

/-- Planar radius of a polar-converted position: the drawn radius itself. -/
theorem planar_radius_polar (r ang z : Real) (hr : 0 ≤ r) :
    GrandFlyby.planar_radius (r * Real.cos ang, r * Real.sin ang, z) = r := by
  show Real.sqrt ((r * Real.cos ang) ^ 2 + (r * Real.sin ang) ^ 2) = r
  have h : (r * Real.cos ang) ^ 2 + (r * Real.sin ang) ^ 2 = r ^ 2 := by
    linear_combination r ^ 2 * Real.cos_sq_add_sin_sq ang
  rw [h, Real.sqrt_sq hr]

/-- C2: the annulus scatterer with inner radius 30, outer radius 60 and
count 250 produces exactly 250 placement records, and every record's
planar radius lies in [30, 60], for every stream of unit draws of the
underlying generator — each record comes from one independent uniform
draw of radius, angle, height and scale, with no rejection sampling. -/
theorem asteroid_field_annulus_c2 (t : Nat → Real)
    (hu : ∀ n, 0 ≤ t n ∧ t n ≤ 1) :
    (GrandFlyby.add_asteroid_field 250 30 60 t).length = 250 ∧
    ∀ rec ∈ GrandFlyby.add_asteroid_field 250 30 60 t,
      30 ≤ GrandFlyby.planar_radius rec.pos ∧
      GrandFlyby.planar_radius rec.pos ≤ 60 := by
  constructor
  · rw [GrandFlyby.add_asteroid_field, List.length_map, List.length_range]
  · intro rec hrec
    rw [GrandFlyby.add_asteroid_field] at hrec
    obtain ⟨i, _, hf⟩ := List.mem_map.mp hrec
    obtain ⟨h0, h1⟩ := hu (4 * i)
    have hb := uniform_mem 30 60 (t (4 * i)) (by norm_num) h0 h1
    rw [← hf]
    dsimp only
    rw [planar_radius_polar _ _ _ (le_trans (by norm_num) hb.1)]
    exact hb

/-- Witness for C2 at the constant zero draw stream: 250 records, all at
planar radius 30. -/
theorem asteroid_field_annulus_c2_witness :
    (GrandFlyby.add_asteroid_field 250 30 60 fun _ => 0).length = 250 ∧
    ∀ rec ∈ GrandFlyby.add_asteroid_field 250 30 60 fun _ => 0,
      30 ≤ GrandFlyby.planar_radius rec.pos ∧
      GrandFlyby.planar_radius rec.pos ≤ 60 :=
  asteroid_field_annulus_c2 (fun _ => 0) fun _ => ⟨le_refl 0, zero_le_one⟩

/-- C7: a second `connect` call targeting an input socket that already
has a link fails with SocketOccupiedError, whatever its source; a
successful `connect` preserves the no-two-links-on-one-input invariant of
the graph under construction; and the built starfield graph's link set
targets pairwise distinct input sockets. -/
theorem connect_socket_occupied_c7 :
    (∀ g src ss dst ds g',
      NodeGraphBuilder.connect g src ss dst ds = Except.ok g' →
      (∀ src2 ss2, NodeGraphBuilder.connect g' src2 ss2 dst ds =
        Except.error NodeGraphBuilder.ConnectError.SocketOccupiedError) ∧
      (distinctInputs g.links = true → distinctInputs g'.links = true)) ∧
    distinctInputs (GrandFlyby.build_starfield_world 600 0.003).links = true := by
  refine ⟨?_, by decide⟩
  intro g src ss dst ds g' h
  by_cases hocc : NodeGraphBuilder.occupied g dst ds
  · rw [NodeGraphBuilder.connect, if_pos hocc] at h
    cases h
  · rw [NodeGraphBuilder.connect, if_neg hocc] at h
    split at h
    · split at h
      · split at h
        · cases h
        · injection h with h
          subst h
          constructor
          · intro src2 ss2
            have hocc2 : NodeGraphBuilder.occupied
                { g with links := ⟨src, ss, dst, ds⟩ :: g.links } dst ds = true := by
              rw [NodeGraphBuilder.occupied]
              simp
            rw [NodeGraphBuilder.connect, if_pos hocc2]
          · intro hd
            rw [distinctInputs, Bool.and_eq_true]
            refine ⟨?_, hd⟩
            rw [List.all_eq_true]
            intro m hm
            have hfalse : (m.dstNode == dst && m.dstSocket == ds) = false :=
              Bool.eq_false_iff.mpr
                fun habs => hocc (List.any_eq_true.mpr ⟨m, hm, habs⟩)
            rw [hfalse]
            rfl
      · cases h
    · cases h

/-- Witness for C7: on a two-node graph with matching shader sockets, a
first `connect` succeeds and the second `connect` to the same input
fails with SocketOccupiedError; the resulting one-link graph has
pairwise distinct link destinations. -/
theorem connect_socket_occupied_c7_witness :
    NodeGraphBuilder.connect
        ⟨[⟨0, [], [("Out", NodeGraphBuilder.SemType.shader)]⟩,
          ⟨1, [("In", NodeGraphBuilder.SemType.shader)], []⟩],
         [⟨0, "Out", 1, "In"⟩]⟩ 0 "Out" 1 "In" =
      Except.error NodeGraphBuilder.ConnectError.SocketOccupiedError ∧
    distinctInputs
        ([⟨0, "Out", 1, "In"⟩] : List SLink) = true :=
  ⟨((connect_socket_occupied_c7.1
      ⟨[⟨0, [], [("Out", NodeGraphBuilder.SemType.shader)]⟩,
        ⟨1, [("In", NodeGraphBuilder.SemType.shader)], []⟩], []⟩
      0 "Out" 1 "In"
      ⟨[⟨0, [], [("Out", NodeGraphBuilder.SemType.shader)]⟩,
        ⟨1, [("In", NodeGraphBuilder.SemType.shader)], []⟩],
       [⟨0, "Out", 1, "In"⟩]⟩ rfl).1 0 "Out"),
   ((connect_socket_occupied_c7.1
      ⟨[⟨0, [], [("Out", NodeGraphBuilder.SemType.shader)]⟩,
        ⟨1, [("In", NodeGraphBuilder.SemType.shader)], []⟩], []⟩
      0 "Out" 1 "In"
      ⟨[⟨0, [], [("Out", NodeGraphBuilder.SemType.shader)]⟩,
        ⟨1, [("In", NodeGraphBuilder.SemType.shader)], []⟩],
       [⟨0, "Out", 1, "In"⟩]⟩ rfl).2 (by decide))⟩

/-- C8: the pivot-rotation (moon orbit) animation is an ordinary
two-keyframe curve on the pivot's rotation property: value zero at the
scene's start frame and a full turn (360 degrees, i.e. 2π radians about
the orbit axis) at the scene's end frame, spanning exactly the scene's
frame range [1, 300]. -/
theorem moon_orbit_two_keyframes_c8 :
    SpaceScene.add_moon_orbit_keys =
      [⟨SpaceScene.FRAME_START, ⟨0, 0, 0⟩⟩,
       ⟨SpaceScene.FRAME_END, ⟨0, 0, 2 * Real.pi⟩⟩] ∧
    SpaceScene.FRAME_START = 1 ∧ SpaceScene.FRAME_END = 300 := by
  have h : SpaceScene.radians 360 = 2 * Real.pi := by
    rw [SpaceScene.radians]
    ring
  refine ⟨?_, rfl, rfl⟩
  rw [show SpaceScene.add_moon_orbit_keys =
    [⟨SpaceScene.FRAME_START, ⟨0, 0, 0⟩⟩,
     ⟨SpaceScene.FRAME_END, ⟨0, 0, SpaceScene.radians 360⟩⟩] from rfl, h]
